import Mathlib

/-!
Shallow embedding of the voice-cloning pipeline of the Dubstudio repository:
the audio clip extractor and WAV encoder (src/utils/audioUtils.ts), the voice
registry (src/services/VoiceManager.ts) and the cloning orchestrator
(src/hooks/useVoiceSystem.ts), together with theorems settling the frozen
claims about them.

Modelling conventions: JavaScript numbers that hold sample values or times are
modelled as rationals (ℚ); float64 rounding of products is not modelled, so
the embedding is exact arithmetic.  Byte buffers are lists of naturals below
256.  Asynchronous effects (network calls, decoding) are passed in as explicit
outcome parameters; thrown exceptions become Except values.
-/

namespace Dubstudio

/-! ### Data model (src/types.ts) -/

structure Speaker where
  id : String
  name : String
  voice_tone : String
deriving Repr, DecidableEq

structure Segment where
  id : String
  speaker_id : String
  start_time : ℚ
  end_time : ℚ
  text : String
deriving Repr, DecidableEq

structure VideoMetadata where
  total_duration : ℚ
  detected_language : String
deriving Repr, DecidableEq

structure VideoAnalysisResult where
  metadata : VideoMetadata
  speakers : List Speaker
  segments : List Segment
deriving Repr, DecidableEq

/-! ### Decoded audio buffers

A Web Audio `AudioBuffer`: per-channel float sample data plus a sample rate.
`numberOfChannels` is the length of the channel list. -/

structure AudioBuffer where
  sampleRate : ℕ
  channels : List (List ℚ)
deriving Repr, DecidableEq

def AudioBuffer.numberOfChannels (b : AudioBuffer) : ℕ := b.channels.length

def AudioBuffer.getChannelData (b : AudioBuffer) (i : ℕ) : List ℚ :=
  b.channels.getD i []

/-! ### WAV encoder (audioBufferToWav, src/utils/audioUtils.ts lines 5-62) -/

/-- Truncation of a rational toward zero, the conversion applied by JavaScript
`DataView.setInt16` to a non-integral float (ToIntegerOrInfinity). -/
def ratTrunc (q : ℚ) : ℤ := if q < 0 then ⌈q⌉ else ⌊q⌋

/-- `Math.max(-1, Math.min(1, s))` from line 56. -/
def clampSample (s : ℚ) : ℚ := max (-1) (min 1 s)

/-- The per-sample quantization of line 58:
`s < 0 ? s * 0x8000 : s * 0x7FFF`, applied to the clamped sample, followed by
`setInt16`'s truncation toward zero. -/
def quantizeSample (s : ℚ) : ℤ :=
  let c := clampSample s
  if c < 0 then ratTrunc (c * 32768) else ratTrunc (c * 32767)

/-- Little-endian bytes of a 16-bit unsigned field. -/
def u16le (v : ℕ) : List ℕ := [v % 256, v / 256 % 256]

/-- Little-endian bytes of a 32-bit unsigned field. -/
def u32le (v : ℕ) : List ℕ :=
  [v % 256, v / 256 % 256, v / 65536 % 256, v / 16777216 % 256]

/-- Little-endian bytes of a signed 16-bit value as stored by `setInt16`
(two's complement: the value is reduced modulo 2^16). -/
def i16le (v : ℤ) : List ℕ := u16le (v % 65536).toNat

/-- The bytes written by `writeString` (line 33): one byte per character. -/
def asciiBytes (s : String) : List ℕ := s.toList.map Char.toNat

/-- The interleaving step of lines 13-24: two channels are merged
sample-by-sample over the indices of the left channel; otherwise channel 0's
data is used directly (there is no channel-count check in the source). -/
def interleaveSamples (buffer : AudioBuffer) : List ℚ :=
  if buffer.numberOfChannels = 2 then
    let left := buffer.getChannelData 0
    let right := buffer.getChannelData 1
    (List.range left.length).flatMap (fun i => [left.getD i 0, right.getD i 0])
  else
    buffer.getChannelData 0

/-- `audioBufferToWav` (lines 5-62): the full byte blob, 44-byte RIFF/WAVE
header followed by 16-bit PCM data. -/
def audioBufferToWav (buffer : AudioBuffer) : List ℕ :=
  let numChannels := buffer.numberOfChannels
  let sampleRate := buffer.sampleRate
  let result := interleaveSamples buffer
  let bytesPerSample := 2
  let blockAlign := numChannels * bytesPerSample
  asciiBytes ("RIFF") ++
  u32le (36 + result.length * bytesPerSample) ++
  asciiBytes ("WAVE") ++
  asciiBytes ("fmt ") ++
  u32le 16 ++
  u16le 1 ++
  u16le numChannels ++
  u32le sampleRate ++
  u32le (sampleRate * blockAlign) ++
  u16le blockAlign ++
  u16le 16 ++
  asciiBytes ("data") ++
  u32le (result.length * bytesPerSample) ++
  (result.map (fun s => i16le (quantizeSample s))).flatten

/-- Read back a little-endian 16-bit field at a byte offset. -/
def readU16le (bytes : List ℕ) (off : ℕ) : ℕ :=
  bytes.getD off 0 + 256 * bytes.getD (off + 1) 0

/-- Read back a little-endian 32-bit field at a byte offset. -/
def readU32le (bytes : List ℕ) (off : ℕ) : ℕ :=
  bytes.getD off 0 + 256 * bytes.getD (off + 1) 0 +
  65536 * bytes.getD (off + 2) 0 + 16777216 * bytes.getD (off + 3) 0

/-- Rounding to the nearest integer (half away from zero, as in the spec's
`round`); used only to state what the spec claims the quantizer does. -/
def specRound (q : ℚ) : ℤ := if q < 0 then -⌊-q + 1/2⌋ else ⌊q + 1/2⌋

/-! ### Audio clip extractor (extractAudioClip, src/utils/audioUtils.ts 72-126)

The browser decode step (`decodeAudioData`) is opaque to the embedding: a
media source is modelled as `Option AudioBuffer`, `none` standing for a byte
stream that fails to decode. -/

/-- The per-channel copy loop of lines 106-112: `frameCount` samples starting
at `startSample`; an index at or beyond the channel length yields `0`.
Indices are naturals: the source's behaviour for negative start times is
outside the modelled domain. -/
def sliceChannel (channelData : List ℚ) (startSample frameCount : ℕ) : List ℚ :=
  (List.range frameCount).map (fun i =>
    if startSample + i < channelData.length then channelData.getD (startSample + i) 0 else 0)

/-- Lines 85-113: compute `startSample`/`endSample`/`frameCount` by flooring,
throw on a non-positive frame count, otherwise build the segment buffer
channel by channel. -/
def extractSegmentBuffer (audioBuffer : AudioBuffer) (startTime endTime : ℚ) :
    Except String AudioBuffer :=
  let startSample := ⌊startTime * (audioBuffer.sampleRate : ℚ)⌋
  let endSample := ⌊endTime * (audioBuffer.sampleRate : ℚ)⌋
  let frameCount := endSample - startSample
  if frameCount ≤ 0 then
    Except.error ("Invalid time range for audio extraction")
  else
    Except.ok
      { sampleRate := audioBuffer.sampleRate,
        channels := audioBuffer.channels.map
          (fun ch => sliceChannel ch startSample.toNat frameCount.toNat) }

/-- The decode step (line 82), opaque: `none` decodes to an error. -/
def decodeAudioData (source : Option AudioBuffer) : Except String AudioBuffer :=
  match source with
  | none => Except.error ("decodeAudioData failed")
  | some audioBuffer => Except.ok audioBuffer

/-- The message of the catch-all handler at lines 122-125. -/
def extractionFailureMessage : String :=
  "Audio extraction failed. ensure the file is a valid video/audio file."

/-- `extractAudioClip` (lines 72-126): decode, slice, WAV-encode — all inside
one try/catch whose handler rethrows every error as the single generic
message. -/
def extractAudioClip (source : Option AudioBuffer) (startTime endTime : ℚ) :
    Except String (List ℕ) :=
  match (decodeAudioData source).bind
      (fun audioBuffer =>
        (extractSegmentBuffer audioBuffer startTime endTime).map audioBufferToWav) with
  | Except.ok wavBlob => Except.ok wavBlob
  | Except.error _ => Except.error extractionFailureMessage

/-! ### Voice registry (src/services/VoiceManager.ts)

`VoiceManagerService` holds an optional API key and the in-memory
speaker→voice-id map.  Network responses and `Date.now()` are explicit
parameters; the returned pair is (state after the call, result). -/

/-- A JavaScript `Map.set`: overwrite in place, preserving insertion order,
appending when the key is new. -/
def mapSet {α : Type} (m : List (String × α)) (k : String) (v : α) :
    List (String × α) :=
  match m with
  | [] => [(k, v)]
  | (k₀, v₀) :: rest =>
      if k₀ = k then (k, v) :: rest else (k₀, v₀) :: mapSet rest k v

structure VoiceManagerState where
  apiKey : Option String
  voiceMap : List (String × String)
deriving Repr, DecidableEq

/-- `isMockMode` (lines 21-23): `!this.apiKey || this.apiKey === 'mock-key'`;
an absent key and the empty string are both falsy. -/
def isMockMode (st : VoiceManagerState) : Bool :=
  match st.apiKey with
  | none => true
  | some k => k = "" || k = "mock-key"

/-- The remote upload call's outcome (lines 50-64): either a non-2xx HTTP
response, or a JSON body with optional `file_id` and `voice_id` fields. -/
inductive UploadResponse
  | httpError (statusText : String)
  | body (file_id : Option String) (voice_id : Option String)
deriving Repr, DecidableEq

/-- JavaScript `a || b` on optional strings: the empty string is falsy. -/
def jsOrString (a b : Option String) : Option String :=
  match a with
  | none => b
  | some s => if s = "" then b else some s

/-- `registerVoice` (lines 32-74).  Mock mode stores and returns
`mock_voice_<id>_<Date.now()>`; real mode uploads, takes
`data.file_id || data.voice_id`, throws when the response is non-2xx or the
identifier is falsy, and otherwise stores and returns it. -/
def registerVoice (st : VoiceManagerState) (speakerId : String) (now : ℕ)
    (response : UploadResponse) : VoiceManagerState × Except String String :=
  if isMockMode st then
    let mockVoiceId := "mock_voice_" ++ speakerId ++ "_" ++ toString now
    ({ st with voiceMap := mapSet st.voiceMap speakerId mockVoiceId },
     Except.ok mockVoiceId)
  else
    match response with
    | UploadResponse.httpError statusText =>
        (st, Except.error ("MiniMax Upload Failed: " ++ statusText))
    | UploadResponse.body fid vid =>
        match jsOrString fid vid with
        | none => (st, Except.error ("No voice ID returned from API"))
        | some voiceId =>
            if voiceId = "" then
              (st, Except.error ("No voice ID returned from API"))
            else
              ({ st with voiceMap := mapSet st.voiceMap speakerId voiceId },
               Except.ok voiceId)

/-- JavaScript `String.prototype.startsWith`, as a check on the character
sequences (semantically the same test as the source's
`voiceId.startsWith('mock_')`). -/
def jsStartsWith (s pre : String) : Bool := pre.toList.isPrefixOf s.toList

/-- The remote text-to-speech call's outcome (lines 109-124). -/
inductive TtsResponse
  | httpError (statusText : String)
  | audio (objectUrl : String)
deriving Repr, DecidableEq

/-- `generateSpeech` (lines 82-130): look up the handle (throwing when none
is registered), answer with the sentinel URL in mock mode or for a
`mock_`-prefixed handle, otherwise post text to the synthesis endpoint with
the looked-up voice id.  `t2a` maps the text and voice id actually sent to
the endpoint's outcome. -/
def generateSpeech (st : VoiceManagerState) (text speakerId : String)
    (t2a : String → String → TtsResponse) : VoiceManagerState × Except String String :=
  match List.lookup speakerId st.voiceMap with
  | none => (st, Except.error ("No voice registered for speaker " ++ speakerId))
  | some voiceId =>
      if isMockMode st || jsStartsWith voiceId ("mock_") then
        (st, Except.ok "mock_audio_url")
      else
        match t2a text voiceId with
        | TtsResponse.httpError statusText =>
            (st, Except.error ("TTS Generation Failed: " ++ statusText))
        | TtsResponse.audio objectUrl => (st, Except.ok objectUrl)

/-! ### Cloning orchestrator (src/hooks/useVoiceSystem.ts)

The hook's reactive state and the `initializeVoices` effect.  `hasVideoFile`
is whether a media source is present (`videoFile !== null`); the outcome of
the awaited extract-and-register step for each speaker is an explicit
environment parameter. -/

inductive CloneStatus
  | PENDING
  | CLONED
  | FAILED
deriving Repr, DecidableEq

structure VoiceSystemState where
  isReady : Bool
  progress : String
  speakerStatus : List (String × CloneStatus)
deriving Repr, DecidableEq

/-- What can go wrong inside the try block of lines 81-109 for one speaker:
the extraction (incl. encoding) await, or the registration await. -/
inductive StepError
  | extractionFailed
  | registrationFailed
deriving Repr, DecidableEq

/-- Lines 31-32: every speaker starts `PENDING`. -/
def initialStatus (speakers : List Speaker) : List (String × CloneStatus) :=
  speakers.map (fun s => (s.id, CloneStatus.PENDING))

/-- Lines 43-48: mock mode marks every speaker `CLONED`. -/
def mockStatus (speakers : List Speaker) : List (String × CloneStatus) :=
  speakers.map (fun s => (s.id, CloneStatus.CLONED))

/-- Lines 34-38: the state set when the run starts. -/
def preparingState (analysisResult : VideoAnalysisResult) : VoiceSystemState :=
  { isReady := false,
    progress := "Preparing to clone voices...",
    speakerStatus := initialStatus analysisResult.speakers }

/-- A segment's duration as used by the selection comparison. -/
def segDuration (s : Segment) : ℚ := s.end_time - s.start_time

/-- The `reduce` of lines 64-68: fold over the remaining segments, keeping
the accumulator unless the candidate is strictly longer. -/
def bestSegmentFold (first : Segment) (rest : List Segment) : Segment :=
  rest.foldl (fun prev current =>
    if segDuration current > segDuration prev then current else prev) first

/-- Lines 59-71: one queue entry per speaker that has at least one segment,
paired with its selected longest segment; zero-segment speakers are dropped
(`.map` to `null` then `.filter`). -/
def cloningQueue (analysisResult : VideoAnalysisResult) :
    List (Speaker × Segment) :=
  analysisResult.speakers.filterMap (fun speaker =>
    match analysisResult.segments.filter (fun s => s.speaker_id = speaker.id) with
    | [] => none
    | first :: rest => some (speaker, bestSegmentFold first rest))

/-- The status written for one queue item by lines 96-108: `CLONED` when the
awaited step succeeded, `FAILED` when it threw. -/
def stepStatus (stepResult : String → Option StepError) (speakerId : String) :
    CloneStatus :=
  match stepResult speakerId with
  | none => CloneStatus.CLONED
  | some _ => CloneStatus.FAILED

/-- The status-map update of one iteration of the loop at lines 77-111. -/
def statusStep (stepResult : String → Option StepError)
    (m : List (String × CloneStatus)) (item : Speaker × Segment) :
    List (String × CloneStatus) :=
  mapSet m item.1.id (stepStatus stepResult item.1.id)

/-- The loop of lines 77-111 acting on the hook state: progress text is
written before each step, then the speaker's status. -/
def processQueue (stepResult : String → Option StepError)
    (queue : List (Speaker × Segment)) (total : ℕ) (st : VoiceSystemState) :
    VoiceSystemState :=
  (queue.foldl
    (fun (acc : VoiceSystemState × ℕ) item =>
      let st₀ := acc.1
      let completedCount := acc.2
      let st₁ :=
        { st₀ with progress :=
            "Cloning voice for " ++ item.1.name ++ " (" ++
            toString (completedCount + 1) ++ "/" ++ toString total ++ ")..." }
      ({ st₁ with speakerStatus := statusStep stepResult st₁.speakerStatus item },
       completedCount + 1))
    (st, 0)).1

/-- `initializeVoices` (lines 29-118) as a state transformer: the previous
hook state is discarded by the full `setState` at lines 34-38, so the result
depends only on the run's inputs. -/
def initializeVoices (hasVideoFile : Bool)
    (stepResult : String → Option StepError)
    (analysisResult : VideoAnalysisResult) : VoiceSystemState :=
  if hasVideoFile = false then
    { isReady := true,
      progress := "Demo voices ready (Mock Mode)",
      speakerStatus := mockStatus analysisResult.speakers }
  else
    let queue := cloningQueue analysisResult
    let st := processQueue stepResult queue queue.length (preparingState analysisResult)
    { st with isReady := true, progress := "Voice cloning complete." }

/-- The successive values of `speakerStatus` over one real-mode run: the
fresh all-`PENDING` map, then one entry per processed queue item. -/
def statusTrace (stepResult : String → Option StepError)
    (analysisResult : VideoAnalysisResult) : List (List (String × CloneStatus)) :=
  (cloningQueue analysisResult).scanl (statusStep stepResult)
    (initialStatus analysisResult.speakers)

/-- One admissible status-map step of a run: every key either keeps its
binding, or moves from `PENDING` to `CLONED` or `FAILED`.  A run whose
adjacent status maps are all related by this relation changes each speaker's
status at most once, and never away from `CLONED` or `FAILED`. -/
def statusTransOk (m₁ m₂ : List (String × CloneStatus)) : Prop :=
  ∀ k : String,
    List.lookup k m₂ = List.lookup k m₁ ∨
    (List.lookup k m₁ = some CloneStatus.PENDING ∧
      (List.lookup k m₂ = some CloneStatus.CLONED ∨
       List.lookup k m₂ = some CloneStatus.FAILED))

/-- `synthesizeSegment` (lines 126-136): in mock mode call straight through;
otherwise throw unless the speaker has a status entry that is not `FAILED`.
`speech` is the underlying `VoiceManager.generateSpeech` call's result. -/
def synthesizeSegment (hasVideoFile : Bool) (st : VoiceSystemState)
    (speech : String → String → Except String String)
    (speakerId text : String) : Except String String :=
  if hasVideoFile = false then
    speech text speakerId
  else
    match List.lookup speakerId st.speakerStatus with
    | none => Except.error ("Voice not available for this speaker.")
    | some status =>
        if status = CloneStatus.FAILED then
          Except.error ("Voice not available for this speaker.")
        else
          speech text speakerId

/-! ## Helper lemmas -/

theorem lookup_mapSet_self {α : Type} (m : List (String × α)) (k : String) (v : α) :
    List.lookup k (mapSet m k v) = some v := by
  induction m with
  | nil => simp [mapSet, List.lookup]
  | cons p rest ih =>
      obtain ⟨k₀, v₀⟩ := p
      by_cases h : k₀ = k
      · simp [mapSet, h, List.lookup]
      · have hbf : (k == k₀) = false :=
          beq_eq_false_iff_ne.mpr (fun hk => h hk.symm)
        simp [mapSet, if_neg h, List.lookup, hbf, ih]

theorem lookup_mapSet_ne {α : Type} (m : List (String × α)) (k k' : String) (v : α)
    (h : k' ≠ k) : List.lookup k' (mapSet m k v) = List.lookup k' m := by
  have hbf : (k' == k) = false := beq_eq_false_iff_ne.mpr h
  induction m with
  | nil => simp [mapSet, List.lookup, hbf]
  | cons p rest ih =>
      obtain ⟨k₀, v₀⟩ := p
      by_cases hk : k₀ = k
      · subst hk
        simp [mapSet, List.lookup, hbf, ih]
      · simp [mapSet, if_neg hk, List.lookup, ih]

theorem lookup_initialStatus (speakers : List Speaker) (k : String)
    (h : k ∈ speakers.map Speaker.id) :
    List.lookup k (initialStatus speakers) = some CloneStatus.PENDING := by
  induction speakers with
  | nil => simp at h
  | cons s rest ih =>
      simp only [List.map_cons, List.mem_cons] at h
      by_cases hk : k = s.id
      · simp [initialStatus, List.lookup, hk]
      · have hm : k ∈ rest.map Speaker.id := by
          rcases h with h | h
          · exact absurd h hk
          · exact h
        have hbf : (k == s.id) = false := beq_eq_false_iff_ne.mpr hk
        simpa [initialStatus, List.lookup, hbf] using ih hm

theorem lookup_mockStatus (speakers : List Speaker) (k : String)
    (h : k ∈ speakers.map Speaker.id) :
    List.lookup k (mockStatus speakers) = some CloneStatus.CLONED := by
  induction speakers with
  | nil => simp at h
  | cons s rest ih =>
      simp only [List.map_cons, List.mem_cons] at h
      by_cases hk : k = s.id
      · simp [mockStatus, List.lookup, hk]
      · have hm : k ∈ rest.map Speaker.id := by
          rcases h with h | h
          · exact absurd h hk
          · exact h
        have hbf : (k == s.id) = false := beq_eq_false_iff_ne.mpr hk
        simpa [mockStatus, List.lookup, hbf] using ih hm

theorem foldl_statusStep_lookup_not_mem (stepResult : String → Option StepError)
    (queue : List (Speaker × Segment)) (m : List (String × CloneStatus)) (k : String)
    (h : k ∉ queue.map (fun item => item.1.id)) :
    List.lookup k (queue.foldl (statusStep stepResult) m) = List.lookup k m := by
  induction queue generalizing m with
  | nil => rfl
  | cons item rest ih =>
      simp only [List.map_cons, List.mem_cons, not_or] at h
      rw [List.foldl_cons, ih _ h.2, statusStep, lookup_mapSet_ne _ _ _ _ h.1]

theorem foldl_statusStep_lookup_mem (stepResult : String → Option StepError)
    (queue : List (Speaker × Segment)) (m : List (String × CloneStatus))
    (sp : Speaker) (seg : Segment)
    (hnd : (queue.map (fun item => item.1.id)).Nodup)
    (hmem : (sp, seg) ∈ queue) :
    List.lookup sp.id (queue.foldl (statusStep stepResult) m) =
      some (stepStatus stepResult sp.id) := by
  induction queue generalizing m with
  | nil => simp at hmem
  | cons item rest ih =>
      simp only [List.map_cons, List.nodup_cons] at hnd
      rcases List.mem_cons.mp hmem with h | h
      · have hid : item.1.id = sp.id := by rw [← h]
        rw [List.foldl_cons, foldl_statusStep_lookup_not_mem _ _ _ _ (hid ▸ hnd.1),
          statusStep, hid, lookup_mapSet_self]
      · rw [List.foldl_cons]
        exact ih _ hnd.2 h

theorem processQueue_speakerStatus (stepResult : String → Option StepError)
    (queue : List (Speaker × Segment)) (total : ℕ) (st : VoiceSystemState) :
    (processQueue stepResult queue total st).speakerStatus =
      queue.foldl (statusStep stepResult) st.speakerStatus := by
  suffices h : ∀ (c : ℕ) (st : VoiceSystemState),
      ((queue.foldl
        (fun (acc : VoiceSystemState × ℕ) item =>
          let st₀ := acc.1
          let completedCount := acc.2
          let st₁ :=
            { st₀ with progress :=
                "Cloning voice for " ++ item.1.name ++ " (" ++
                toString (completedCount + 1) ++ "/" ++ toString total ++ ")..." }
          ({ st₁ with
              speakerStatus := statusStep stepResult st₁.speakerStatus item },
           completedCount + 1))
        (st, c)).1).speakerStatus = queue.foldl (statusStep stepResult) st.speakerStatus by
    exact h 0 st
  induction queue with
  | nil => intro c st; rfl
  | cons item rest ih => intro c st; exact ih (c + 1) _

theorem mem_cloningQueue (analysisResult : VideoAnalysisResult)
    (sp : Speaker) (seg : Segment)
    (h : (sp, seg) ∈ cloningQueue analysisResult) :
    sp ∈ analysisResult.speakers ∧
    ∃ first rest,
      analysisResult.segments.filter (fun s => s.speaker_id = sp.id) = first :: rest ∧
      seg = bestSegmentFold first rest := by
  obtain ⟨sp₀, hsp₀, hf⟩ := List.mem_filterMap.mp h
  rcases hfil : analysisResult.segments.filter (fun s => s.speaker_id = sp₀.id) with
    _ | ⟨first, rest⟩
  · rw [hfil] at hf; exact absurd hf (by simp)
  · rw [hfil] at hf
    simp only [Option.some.injEq, Prod.mk.injEq] at hf
    obtain ⟨hsp, hseg⟩ := hf
    subst hsp
    exact ⟨hsp₀, first, rest, hfil, hseg.symm⟩

theorem cloningQueue_of_filter (analysisResult : VideoAnalysisResult)
    (sp : Speaker) (first : Segment) (rest : List Segment)
    (hsp : sp ∈ analysisResult.speakers)
    (hfil : analysisResult.segments.filter (fun s => s.speaker_id = sp.id) =
      first :: rest) :
    (sp, bestSegmentFold first rest) ∈ cloningQueue analysisResult := by
  refine List.mem_filterMap.mpr ⟨sp, hsp, ?_⟩
  rw [hfil]

theorem not_mem_cloningQueue (analysisResult : VideoAnalysisResult)
    (sp : Speaker)
    (hfil : analysisResult.segments.filter (fun s => s.speaker_id = sp.id) = []) :
    ∀ seg, (sp, seg) ∉ cloningQueue analysisResult := by
  intro seg h
  obtain ⟨_, first, rest, hfil', _⟩ := mem_cloningQueue _ _ _ h
  rw [hfil] at hfil'
  exact List.noConfusion hfil'

theorem cloningQueue_ids_sublist (analysisResult : VideoAnalysisResult) :
    ((cloningQueue analysisResult).map (fun item => item.1.id)).Sublist
      (analysisResult.speakers.map Speaker.id) := by
  unfold cloningQueue
  induction analysisResult.speakers with
  | nil => simp
  | cons sp rest ih =>
      rcases hfil : analysisResult.segments.filter (fun s => s.speaker_id = sp.id) with
        _ | ⟨first, tail⟩
      · simp only [List.filterMap_cons, hfil, List.map_cons]
        exact ih.cons _
      · simp only [List.filterMap_cons, hfil, List.map_cons]
        exact ih.cons₂ _

theorem cloningQueue_ids_nodup (analysisResult : VideoAnalysisResult)
    (hnd : (analysisResult.speakers.map Speaker.id).Nodup) :
    ((cloningQueue analysisResult).map (fun item => item.1.id)).Nodup :=
  (cloningQueue_ids_sublist analysisResult).nodup hnd

theorem not_mem_cloningQueue_ids (analysisResult : VideoAnalysisResult)
    (sp : Speaker)
    (hnd : (analysisResult.speakers.map Speaker.id).Nodup)
    (hsp : sp ∈ analysisResult.speakers)
    (hfil : analysisResult.segments.filter (fun s => s.speaker_id = sp.id) = []) :
    sp.id ∉ (cloningQueue analysisResult).map (fun item => item.1.id) := by
  intro h
  obtain ⟨⟨sp₀, seg₀⟩, hmem, hid⟩ := List.mem_map.mp h
  obtain ⟨hsp₀, first, rest, hfil₀, _⟩ := mem_cloningQueue _ _ _ hmem
  have : sp₀ = sp :=
    List.inj_on_of_nodup_map hnd hsp₀ hsp hid
  rw [this, hfil] at hfil₀
  exact List.noConfusion hfil₀

theorem bestSegmentFold_spec (first : Segment) (rest : List Segment) :
    ∃ l₁ l₂,
      first :: rest = l₁ ++ bestSegmentFold first rest :: l₂ ∧
      (∀ s ∈ l₁, segDuration s < segDuration (bestSegmentFold first rest)) ∧
      (∀ s ∈ first :: rest, segDuration s ≤ segDuration (bestSegmentFold first rest)) := by
  induction rest generalizing first with
  | nil =>
      exact ⟨[], [], by simp [bestSegmentFold], by simp, by
        intro s hs
        simp only [List.mem_singleton] at hs
        simp [hs, bestSegmentFold]⟩
  | cons c rest ih =>
      by_cases hcmp : segDuration c > segDuration first
      · have hstep : bestSegmentFold first (c :: rest) = bestSegmentFold c rest := by
          simp [bestSegmentFold, List.foldl_cons, if_pos hcmp]
        obtain ⟨l₁, l₂, hdec, hlt, hmax⟩ := ih c
        refine ⟨first :: l₁, l₂, ?_, ?_, ?_⟩
        · rw [hstep, List.cons_append, ← hdec]
        · intro s hs
          rw [hstep]
          rcases List.mem_cons.mp hs with h | h
          · subst h
            exact lt_of_lt_of_le hcmp (hmax c (List.mem_cons_self c rest))
          · exact hlt s h
        · intro s hs
          rw [hstep]
          rcases List.mem_cons.mp hs with h | h
          · subst h
            exact le_of_lt (lt_of_lt_of_le hcmp (hmax c (List.mem_cons_self c rest)))
          · exact hmax s h
      · have hstep : bestSegmentFold first (c :: rest) = bestSegmentFold first rest := by
          simp [bestSegmentFold, List.foldl_cons, if_neg hcmp]
        push_neg at hcmp
        obtain ⟨l₁, l₂, hdec, hlt, hmax⟩ := ih first
        rcases l₁ with _ | ⟨x, l₁'⟩
        · -- the best element is `first` itself
          have hbest : bestSegmentFold first rest = first := by
            have := hdec
            simp only [List.nil_append] at this
            exact (List.cons.injEq _ _ _ _ ▸ this).1.symm
          refine ⟨[], c :: rest, ?_, by simp, ?_⟩
          · rw [hstep, hbest, List.nil_append]
          · intro s hs
            rw [hstep, hbest]
            rcases List.mem_cons.mp hs with h | h
            · subst h; exact le_refl _
            · rcases List.mem_cons.mp h with h | h
              · subst h; exact hcmp
              · simpa [hbest] using hmax s (List.mem_cons_of_mem _ h)
        · -- the best element lies inside `rest`
          have hx : x = first := by
            have := hdec
            simp only [List.cons_append] at this
            exact ((List.cons.injEq _ _ _ _).mp this).1.symm
          have hrest : rest = l₁' ++ bestSegmentFold first rest :: l₂ := by
            have := hdec
            simp only [List.cons_append] at this
            exact ((List.cons.injEq _ _ _ _).mp this).2
          refine ⟨first :: c :: l₁', l₂, ?_, ?_, ?_⟩
          · rw [hstep, List.cons_append, List.cons_append, ← hrest]
          · intro s hs
            rw [hstep]
            have hfirstlt : segDuration first < segDuration (bestSegmentFold first rest) := by
              have := hlt x (List.mem_cons_self x l₁')
              rwa [hx] at this
            rcases List.mem_cons.mp hs with h | h
            · subst h; exact hfirstlt
            · rcases List.mem_cons.mp h with h | h
              · subst h; exact lt_of_le_of_lt hcmp hfirstlt
              · exact hlt s (List.mem_cons_of_mem _ h)
          · intro s hs
            rw [hstep]
            rcases List.mem_cons.mp hs with h | h
            · subst h
              exact hmax _ (List.mem_cons_self _ _)
            · rcases List.mem_cons.mp h with h | h
              · subst h
                exact le_trans hcmp (hmax _ (List.mem_cons_self _ _))
              · exact hmax _ (List.mem_cons_of_mem _ h)

theorem chain_statusTrace (stepResult : String → Option StepError)
    (queue : List (Speaker × Segment)) (m : List (String × CloneStatus))
    (hnd : (queue.map (fun item => item.1.id)).Nodup)
    (hpend : ∀ item ∈ queue, List.lookup item.1.id m = some CloneStatus.PENDING) :
    List.Chain' statusTransOk (queue.scanl (statusStep stepResult) m) := by
  induction queue generalizing m with
  | nil => simp [List.scanl]
  | cons item rest ih =>
      simp only [List.map_cons, List.nodup_cons] at hnd
      have hscanl : (item :: rest).scanl (statusStep stepResult) m =
          m :: rest.scanl (statusStep stepResult) (statusStep stepResult m item) := rfl
      rw [hscanl]
      have hhead :
          (rest.scanl (statusStep stepResult) (statusStep stepResult m item)).head? =
            some (statusStep stepResult m item) := by
        cases rest <;> rfl
      refine List.chain'_cons'.mpr ⟨?_, ?_⟩
      · intro y hy
        rw [hhead, Option.mem_def, Option.some.injEq] at hy
        subst hy
        intro k
        by_cases hk : k = item.1.id
        · subst hk
          refine Or.inr ⟨hpend item (List.mem_cons_self _ _), ?_⟩
          rw [statusStep, lookup_mapSet_self]
          cases h : stepResult item.1.id <;> simp [stepStatus, h]
        · exact Or.inl (by rw [statusStep, lookup_mapSet_ne _ _ _ _ hk])
      · refine ih _ hnd.2 ?_
        intro item' hmem
        have hne : item'.1.id ≠ item.1.id := by
          intro h
          exact hnd.1 (h ▸ List.mem_map.mpr ⟨item', hmem, rfl⟩)
        rw [statusStep, lookup_mapSet_ne _ _ _ _ hne]
        exact hpend item' (List.mem_cons_of_mem _ hmem)

/-! WAV byte-level helper lemmas. -/

theorem asciiBytes_RIFF : asciiBytes ("RIFF") = [82, 73, 70, 70] := by decide

theorem asciiBytes_WAVE : asciiBytes ("WAVE") = [87, 65, 86, 69] := by decide

theorem asciiBytes_fmt : asciiBytes ("fmt ") = [102, 109, 116, 32] := by decide

theorem asciiBytes_data : asciiBytes ("data") = [100, 97, 116, 97] := by decide

theorem length_wavData (l : List ℚ) :
    ((l.map (fun s => i16le (quantizeSample s))).flatten).length = 2 * l.length := by
  induction l with
  | nil => rfl
  | cons s rest ih =>
      simp only [List.map_cons, List.flatten_cons, List.length_append, ih,
        List.length_cons]
      have h2 : (i16le (quantizeSample s)).length = 2 := rfl
      rw [h2]
      omega

theorem quantizeSample_zero : quantizeSample 0 = 0 := by
  norm_num [quantizeSample, clampSample, ratTrunc]

theorem wavData_zero (l : List ℚ) (h : ∀ s ∈ l, s = 0) :
    (l.map (fun s => i16le (quantizeSample s))).flatten =
      List.replicate (2 * l.length) 0 := by
  induction l with
  | nil => rfl
  | cons s rest ih =>
      have hs : s = 0 := h s (List.mem_cons_self _ _)
      have hrest : ∀ x ∈ rest, x = 0 := fun x hx => h x (List.mem_cons_of_mem _ hx)
      have h2 : 2 * (rest.length + 1) = (2 * rest.length) + 1 + 1 := by omega
      simp only [List.map_cons, List.flatten_cons, hs, quantizeSample_zero,
        ih hrest, List.length_cons, h2, List.replicate_succ]
      rfl

theorem flatMapPair_length (f g : ℕ → ℚ) (n : ℕ) :
    ((List.range n).flatMap (fun j => [f j, g j])).length = 2 * n := by
  induction n with
  | zero => rfl
  | succ n ih =>
      rw [List.range_succ, List.flatMap_append]
      simp only [List.length_append, ih, List.flatMap_cons, List.flatMap_nil]
      simp
      omega

theorem flatMapPair_getD (f g : ℕ → ℚ) (n i : ℕ) (h : i < n) :
    ((List.range n).flatMap (fun j => [f j, g j])).getD (2 * i) 0 = f i ∧
    ((List.range n).flatMap (fun j => [f j, g j])).getD (2 * i + 1) 0 = g i := by
  induction n with
  | zero => omega
  | succ n ih =>
      rw [List.range_succ, List.flatMap_append]
      by_cases hi : i < n
      · have hlen : 2 * i + 1 < ((List.range n).flatMap (fun j => [f j, g j])).length := by
          rw [flatMapPair_length]; omega
        constructor
        · rw [List.getD_append _ _ _ _ (by omega)]
          exact (ih hi).1
        · rw [List.getD_append _ _ _ _ hlen]
          exact (ih hi).2
      · have hi' : i = n := by omega
        subst hi'
        have hlen : ((List.range i).flatMap (fun j => [f j, g j])).length = 2 * i :=
          flatMapPair_length f g i
        constructor
        · rw [List.getD_append_right _ _ _ _ (by omega), hlen]
          simp
        · rw [List.getD_append_right _ _ _ _ (by omega), hlen]
          have : 2 * i + 1 - 2 * i = 1 := by omega
          rw [this]
          simp

theorem getD_mem_or_default {α : Type} (l : List α) (i : ℕ) (d : α) :
    l.getD i d ∈ l ∨ l.getD i d = d := by
  by_cases h : i < l.length
  · left
    rw [List.getD_eq_getElem l d h]
    exact l.getElem_mem h
  · right
    exact List.getD_eq_default l d (by omega)

theorem mem_u16le (v x : ℕ) (h : x ∈ u16le v) : x < 256 := by
  simp only [u16le, List.mem_cons, List.not_mem_nil, or_false] at h
  rcases h with h | h <;> omega

theorem mem_u32le (v x : ℕ) (h : x ∈ u32le v) : x < 256 := by
  simp only [u32le, List.mem_cons, List.not_mem_nil, or_false] at h
  rcases h with h | h | h | h <;> omega

theorem processQueue_isReady (stepResult : String → Option StepError)
    (queue : List (Speaker × Segment)) (total : ℕ) (st : VoiceSystemState) :
    (processQueue stepResult queue total st).isReady = st.isReady := by
  suffices h : ∀ (c : ℕ) (st : VoiceSystemState),
      ((queue.foldl
        (fun (acc : VoiceSystemState × ℕ) item =>
          let st₀ := acc.1
          let completedCount := acc.2
          let st₁ :=
            { st₀ with progress :=
                "Cloning voice for " ++ item.1.name ++ " (" ++
                toString (completedCount + 1) ++ "/" ++ toString total ++ ")..." }
          ({ st₁ with
              speakerStatus := statusStep stepResult st₁.speakerStatus item },
           completedCount + 1))
        (st, c)).1).isReady = st.isReady by
    exact h 0 st
  induction queue with
  | nil => intro c st; rfl
  | cons item rest ih => intro c st; exact ih (c + 1) _

theorem registerVoice_ok_lookup (st : VoiceManagerState) (speakerId : String) (now : ℕ)
    (resp : UploadResponse) (v : String)
    (h : (registerVoice st speakerId now resp).2 = Except.ok v) :
    List.lookup speakerId (registerVoice st speakerId now resp).1.voiceMap = some v := by
  by_cases hm : isMockMode st = true
  · simp only [registerVoice, if_pos hm] at h ⊢
    simp only [Except.ok.injEq] at h
    subst h
    exact lookup_mapSet_self _ _ _
  · cases resp with
    | httpError s => simp [registerVoice, hm] at h
    | body fid vid =>
        rcases hj : jsOrString fid vid with _ | voiceId
        · simp [registerVoice, hm, hj] at h
        · by_cases hv : voiceId = ""
          · simp [registerVoice, hm, hj, hv] at h
          · simp only [registerVoice, if_neg hm, hj, if_neg hv] at h ⊢
            simp only [Except.ok.injEq] at h
            subst h
            exact lookup_mapSet_self _ _ _

theorem generateSpeech_fst (st : VoiceManagerState) (text speakerId : String)
    (t2a : String → String → TtsResponse) :
    (generateSpeech st text speakerId t2a).1 = st := by
  rcases h : List.lookup speakerId st.voiceMap with _ | voiceId
  · simp [generateSpeech, h]
  · by_cases hm : (isMockMode st || jsStartsWith voiceId ("mock_")) = true
    · simp [generateSpeech, h, hm]
    · rcases ht : t2a text voiceId with s | u <;> simp [generateSpeech, h, hm, ht]

/-! ## Claim theorems -/

/-- C1, counterexample: in real mode (a media source is present) a speaker
whose status is `PENDING` passes the availability check of
`synthesizeSegment` — the underlying synthesis call is made and its result
returned — although `PENDING` is not `CLONED`.  The source check
(useVoiceSystem.ts line 132) only rejects a missing entry or `FAILED`, so the
claim that every non-`Cloned` status (including `Pending`) is rejected is
false on the code. -/
theorem synthesizeSegment_pending_allowed_cex :
    synthesizeSegment true
      { isReady := false, progress := "",
        speakerStatus := [("spk_1", CloneStatus.PENDING)] }
      (fun _ _ => Except.ok ("audio_url")) "spk_1" "hello" =
      Except.ok ("audio_url") ∧
    CloneStatus.PENDING ≠ CloneStatus.CLONED := by
  exact ⟨rfl, by decide⟩

/-- C1, amended: in demo/mock mode (no media source) `synthesizeSegment`
always passes the availability check and calls through; in real mode it is
rejected with the voice-unavailable error exactly when the speaker has no
status entry or its status is `FAILED` — a `PENDING` or `CLONED` status is
allowed through. -/
theorem synthesizeSegment_availability (hasVideoFile : Bool) (st : VoiceSystemState)
    (speech : String → String → Except String String) (speakerId text : String) :
    (hasVideoFile = false →
      synthesizeSegment hasVideoFile st speech speakerId text = speech text speakerId) ∧
    (hasVideoFile = true →
      ((List.lookup speakerId st.speakerStatus = none →
        synthesizeSegment hasVideoFile st speech speakerId text =
          Except.error ("Voice not available for this speaker.")) ∧
      (List.lookup speakerId st.speakerStatus = some CloneStatus.FAILED →
        synthesizeSegment hasVideoFile st speech speakerId text =
          Except.error ("Voice not available for this speaker.")) ∧
      (∀ status, List.lookup speakerId st.speakerStatus = some status →
        status ≠ CloneStatus.FAILED →
        synthesizeSegment hasVideoFile st speech speakerId text =
          speech text speakerId))) := by
  refine ⟨fun h => by simp [synthesizeSegment, h], fun h => ⟨?_, ?_, ?_⟩⟩
  · intro hl
    simp [synthesizeSegment, h, hl]
  · intro hl
    simp [synthesizeSegment, h, hl]
  · intro status hl hne
    simp [synthesizeSegment, h, hl, hne]

/-- C1, witness: with no status entry the real-mode call is rejected; with a
`PENDING` entry it is allowed through. -/
theorem synthesizeSegment_availability_witness :
    synthesizeSegment true { isReady := false, progress := "", speakerStatus := [] }
      (fun _ _ => Except.ok ("a")) "s1" "t" =
      Except.error ("Voice not available for this speaker.") ∧
    synthesizeSegment true
      { isReady := false, progress := "",
        speakerStatus := [("s1", CloneStatus.PENDING)] }
      (fun _ _ => Except.ok ("a")) "s1" "t" = Except.ok ("a") :=
  ⟨((synthesizeSegment_availability true _ _ _ _).2 rfl).1 rfl,
   ((synthesizeSegment_availability true _ _ _ _).2 rfl).2.2
     CloneStatus.PENDING rfl (by decide)⟩

/-- C5, counterexample: the encoder truncates toward zero rather than
rounding.  At the sample `1/2` the code stores `⌊16383.5⌋ = 16383`
(audioUtils.ts line 58 passes the unrounded product to `setInt16`, which
truncates), while the claimed `round(s * 32767)` is `16384`. -/
theorem quantizeSample_truncates_cex :
    quantizeSample (1/2) = 16383 ∧ specRound ((1/2) * 32767) = 16384 := by
  constructor
  · norm_num [quantizeSample, clampSample, ratTrunc, Int.floor_eq_iff]
  · norm_num [specRound, Int.floor_eq_iff]

/-- C5, amended: each sample is clamped to `[-1, 1]` and then quantized with
truncation toward zero (negative values against 32768, non-negative against
32767): every sample at or above `1` — in particular `2` and `1` — encodes
to `32767`, every sample at or below `-1` — in particular `-2` and `-1` —
encodes to `-32768`, and every quantized value lies in `[-32768, 32767]`. -/
theorem quantizeSample_clamp :
    (∀ s : ℚ, 1 ≤ s → quantizeSample s = 32767) ∧
    (∀ s : ℚ, s ≤ -1 → quantizeSample s = -32768) ∧
    (∀ s : ℚ, -32768 ≤ quantizeSample s ∧ quantizeSample s ≤ 32767) := by
  refine ⟨?_, ?_, ?_⟩
  · intro s h
    have hc : clampSample s = 1 := by
      rw [clampSample, min_eq_left h]
      exact max_eq_right (by norm_num)
    simp only [quantizeSample, hc]
    norm_num [ratTrunc, Int.floor_eq_iff]
  · intro s h
    have hc : clampSample s = -1 := by
      rw [clampSample, min_eq_right (le_trans h (by norm_num))]
      exact max_eq_left h
    simp only [quantizeSample, hc]
    norm_num [ratTrunc, Int.ceil_eq_iff]
  · intro s
    have h₁ : -1 ≤ clampSample s := le_max_left _ _
    have h₂ : clampSample s ≤ 1 := max_le (by norm_num) (min_le_left _ _)
    simp only [quantizeSample]
    by_cases hc : clampSample s < 0
    · rw [if_pos hc]
      simp only [ratTrunc]
      rw [if_pos (by nlinarith)]
      constructor
      · have hle : ((-32768 : ℤ) : ℚ) ≤ clampSample s * 32768 := by
          push_cast
          nlinarith
        calc (-32768 : ℤ) = ⌈((-32768 : ℤ) : ℚ)⌉ := (Int.ceil_intCast _).symm
          _ ≤ ⌈clampSample s * 32768⌉ := Int.ceil_le_ceil hle
      · have hle : clampSample s * 32768 ≤ 0 := by nlinarith
        have h0 : ⌈clampSample s * 32768⌉ ≤ 0 :=
          Int.ceil_le.mpr (by exact_mod_cast hle)
        omega
    · rw [if_neg hc]
      push_neg at hc
      simp only [ratTrunc]
      rw [if_neg (by nlinarith)]
      constructor
      · have h0 : 0 ≤ ⌊clampSample s * 32767⌋ :=
          Int.floor_nonneg.mpr (by nlinarith)
        omega
      · have hle : clampSample s * 32767 ≤ ((32767 : ℤ) : ℚ) := by
          push_cast
          nlinarith
        calc ⌊clampSample s * 32767⌋ ≤ ⌊((32767 : ℤ) : ℚ)⌋ := Int.floor_le_floor hle
          _ = 32767 := Int.floor_intCast _

/-- C5, witness: the clamped encodings at `2`, `1`, `-2` and `-1`. -/
theorem quantizeSample_clamp_witness :
    quantizeSample 2 = 32767 ∧ quantizeSample 1 = 32767 ∧
    quantizeSample (-2) = -32768 ∧ quantizeSample (-1) = -32768 :=
  ⟨quantizeSample_clamp.1 2 (by norm_num), quantizeSample_clamp.1 1 (by norm_num),
   quantizeSample_clamp.2.1 (-2) (by norm_num),
   quantizeSample_clamp.2.1 (-1) (by norm_num)⟩

/-- C10: every successful `registerVoice` call overwrites the registry's
speaker→handle mapping (after two successful registrations the stored handle
is the second one), `generateSpeech` never mutates the mapping (the state it
returns is the state it was given), and a real-mode `generateSpeech` call
posts the currently stored — newest — handle to the synthesis endpoint. -/
theorem voiceRegistry_overwrite :
    (∀ (st : VoiceManagerState) (speakerId : String) (now : ℕ)
        (resp : UploadResponse) (v : String),
      (registerVoice st speakerId now resp).2 = Except.ok v →
      List.lookup speakerId (registerVoice st speakerId now resp).1.voiceMap = some v) ∧
    (∀ (st : VoiceManagerState) (text speakerId : String)
        (t2a : String → String → TtsResponse),
      (generateSpeech st text speakerId t2a).1 = st) ∧
    (∀ (st : VoiceManagerState) (speakerId : String) (n₁ n₂ : ℕ)
        (r₁ r₂ : UploadResponse) (v₁ v₂ : String),
      (registerVoice st speakerId n₁ r₁).2 = Except.ok v₁ →
      (registerVoice (registerVoice st speakerId n₁ r₁).1 speakerId n₂ r₂).2 =
        Except.ok v₂ →
      List.lookup speakerId
        (registerVoice (registerVoice st speakerId n₁ r₁).1 speakerId n₂ r₂).1.voiceMap =
        some v₂) ∧
    (∀ (st : VoiceManagerState) (text speakerId voiceId url : String)
        (t2a : String → String → TtsResponse),
      List.lookup speakerId st.voiceMap = some voiceId →
      isMockMode st = false →
      jsStartsWith voiceId ("mock_") = false →
      t2a text voiceId = TtsResponse.audio url →
      (generateSpeech st text speakerId t2a).2 = Except.ok url) := by
  refine ⟨registerVoice_ok_lookup, generateSpeech_fst, ?_, ?_⟩
  · intro st speakerId n₁ n₂ r₁ r₂ v₁ v₂ _ h₂
    exact registerVoice_ok_lookup _ _ _ _ _ h₂
  · intro st text speakerId voiceId url t2a hl hm hpre ht
    simp [generateSpeech, hl, hm, hpre, ht]

/-- C10, witness: registering twice for one speaker stores the second
handle, and a subsequent real-mode synthesis call uses it. -/
theorem voiceRegistry_overwrite_witness :
    List.lookup ("spk_1")
      (registerVoice
        (registerVoice { apiKey := some ("prod-key"), voiceMap := [] }
          "spk_1" 0 (UploadResponse.body (some ("voice_A")) none)).1
        "spk_1" 1 (UploadResponse.body (some ("voice_B")) none)).1.voiceMap =
      some ("voice_B") ∧
    (generateSpeech
      { apiKey := some ("prod-key"), voiceMap := [("spk_1", "voice_B")] }
      "hi" "spk_1" (fun _ _ => TtsResponse.audio ("url"))).2 = Except.ok ("url") :=
  ⟨voiceRegistry_overwrite.2.2.1 _ "spk_1" 0 1 _ _ "voice_A" "voice_B" rfl rfl,
   voiceRegistry_overwrite.2.2.2 _ "hi" "spk_1" "voice_B" "url" _ rfl rfl rfl rfl⟩

/-- C2: in a real-mode run with distinct speaker ids, the run always ends
with `is_ready = true`, and each queued speaker's final status is decided by
that speaker's own step outcome alone: `FAILED` when its extraction or
registration step raised, `CLONED` when it succeeded — so one speaker's
failure never prevents the others from being attempted, and no step error
escapes the run (the run is a total function of the outcomes). -/
theorem initializeVoices_partial_failure
    (analysisResult : VideoAnalysisResult) (stepResult : String → Option StepError)
    (hnd : (analysisResult.speakers.map Speaker.id).Nodup) :
    (initializeVoices true stepResult analysisResult).isReady = true ∧
    (∀ sp seg, (sp, seg) ∈ cloningQueue analysisResult →
      ((∀ e, stepResult sp.id = some e →
          List.lookup sp.id
            (initializeVoices true stepResult analysisResult).speakerStatus =
            some CloneStatus.FAILED) ∧
       (stepResult sp.id = none →
          List.lookup sp.id
            (initializeVoices true stepResult analysisResult).speakerStatus =
            some CloneStatus.CLONED))) := by
  have hqnd := cloningQueue_ids_nodup analysisResult hnd
  have hstatus : (initializeVoices true stepResult analysisResult).speakerStatus =
      (cloningQueue analysisResult).foldl (statusStep stepResult)
        (initialStatus analysisResult.speakers) := by
    simp only [initializeVoices, Bool.true_eq_false, if_false]
    exact processQueue_speakerStatus _ _ _ _
  refine ⟨by simp [initializeVoices], ?_⟩
  intro sp seg hmem
  have hlk := foldl_statusStep_lookup_mem stepResult _
    (initialStatus analysisResult.speakers) sp seg hqnd hmem
  rw [hstatus, hlk]
  constructor
  · intro e he
    simp [stepStatus, he]
  · intro he
    simp [stepStatus, he]

/-- C2, witness: two speakers with one segment each; the second speaker's
registration step fails.  The failed speaker ends `FAILED`, the other ends
`CLONED`, and the run still reaches ready. -/
theorem initializeVoices_partial_failure_witness :
    (initializeVoices true
      (fun id => if id = "spk_b" then some StepError.registrationFailed else none)
      { metadata := { total_duration := 9, detected_language := "en" },
        speakers := [{ id := "spk_a", name := "A", voice_tone := "warm" },
                     { id := "spk_b", name := "B", voice_tone := "deep" }],
        segments := [{ id := "seg_1", speaker_id := "spk_a", start_time := 0,
                       end_time := 1, text := "hi" },
                     { id := "seg_2", speaker_id := "spk_b", start_time := 2,
                       end_time := 3, text := "yo" }] }).isReady = true ∧
    List.lookup ("spk_a")
      (initializeVoices true
        (fun id => if id = "spk_b" then some StepError.registrationFailed else none)
        { metadata := { total_duration := 9, detected_language := "en" },
          speakers := [{ id := "spk_a", name := "A", voice_tone := "warm" },
                       { id := "spk_b", name := "B", voice_tone := "deep" }],
          segments := [{ id := "seg_1", speaker_id := "spk_a", start_time := 0,
                         end_time := 1, text := "hi" },
                       { id := "seg_2", speaker_id := "spk_b", start_time := 2,
                         end_time := 3, text := "yo" }] }).speakerStatus =
      some CloneStatus.CLONED ∧
    List.lookup ("spk_b")
      (initializeVoices true
        (fun id => if id = "spk_b" then some StepError.registrationFailed else none)
        { metadata := { total_duration := 9, detected_language := "en" },
          speakers := [{ id := "spk_a", name := "A", voice_tone := "warm" },
                       { id := "spk_b", name := "B", voice_tone := "deep" }],
          segments := [{ id := "seg_1", speaker_id := "spk_a", start_time := 0,
                         end_time := 1, text := "hi" },
                       { id := "seg_2", speaker_id := "spk_b", start_time := 2,
                         end_time := 3, text := "yo" }] }).speakerStatus =
      some CloneStatus.FAILED := by
  refine ⟨(initializeVoices_partial_failure _ _ (by decide)).1, ?_, ?_⟩
  · exact ((initializeVoices_partial_failure _ _ (by decide)).2
      ⟨"spk_a", "A", "warm"⟩ ⟨"seg_1", "spk_a", 0, 1, "hi"⟩
      (cloningQueue_of_filter _ ⟨"spk_a", "A", "warm"⟩
        ⟨"seg_1", "spk_a", 0, 1, "hi"⟩ [] (by decide) (by decide))).2 (by decide)
  · exact ((initializeVoices_partial_failure _ _ (by decide)).2
      ⟨"spk_b", "B", "deep"⟩ ⟨"seg_2", "spk_b", 2, 3, "yo"⟩
      (cloningQueue_of_filter _ ⟨"spk_b", "B", "deep"⟩
        ⟨"seg_2", "spk_b", 2, 3, "yo"⟩ [] (by decide) (by decide))).1
      StepError.registrationFailed (by decide)

theorem scanl_getLast {α β : Type} (f : α → β → α) (l : List β) (b : α) :
    (l.scanl f b).getLast? = some (l.foldl f b) := by
  induction l generalizing b with
  | nil => rfl
  | cons a l ih =>
      have h : (a :: l).scanl f b = b :: l.scanl f (f b a) := rfl
      rw [h, List.foldl_cons]
      have h2 := ih (f b a)
      cases hc : l.scanl f (f b a) with
      | nil =>
          have hlen := congrArg List.length hc
          simp [List.length_scanl] at hlen
      | cons c t =>
          rw [hc] at h2
          rw [List.getLast?_cons_cons]
          exact h2

/-- C9, counterexample: a real-mode run over one speaker with zero segments
leaves that speaker's status entry at `PENDING` forever — it never
transitions to `CLONED` or `FAILED`, so the claim that every speaker in the
status map transitions exactly once is false on the code (the queue of
useVoiceSystem.ts lines 59-71 drops zero-segment speakers, and nothing else
writes their entry). -/
theorem statusLifecycle_skipped_speaker_cex :
    List.lookup ("spk_b")
      (initializeVoices true (fun _ => none)
        { metadata := { total_duration := 5, detected_language := "en" },
          speakers := [{ id := "spk_b", name := "B", voice_tone := "deep" }],
          segments := [] }).speakerStatus = some CloneStatus.PENDING ∧
    CloneStatus.PENDING ≠ CloneStatus.CLONED ∧
    CloneStatus.PENDING ≠ CloneStatus.FAILED := by
  exact ⟨by decide, by decide, by decide⟩

/-- C9, amended: within one real-mode run with distinct speaker ids, every
speaker's entry in the status map initializes to `PENDING` when the run
starts (the map is rebuilt afresh from the run's own analysis result, so a
new run starts over from all-`PENDING`), each speaker's status changes at
most once along the run — only away from `PENDING`, and only to `CLONED` or
`FAILED` — and it changes exactly once for the speakers that enter the
cloning queue (those with at least one segment); speakers with zero segments
keep their `PENDING` entry to the end of the run. -/
theorem speakerStatus_lifecycle
    (analysisResult : VideoAnalysisResult) (stepResult : String → Option StepError)
    (hnd : (analysisResult.speakers.map Speaker.id).Nodup) :
    ((statusTrace stepResult analysisResult).head? =
        some (initialStatus analysisResult.speakers)) ∧
    (∀ sp ∈ analysisResult.speakers,
        List.lookup sp.id (initialStatus analysisResult.speakers) =
          some CloneStatus.PENDING) ∧
    List.Chain' statusTransOk (statusTrace stepResult analysisResult) ∧
    ((statusTrace stepResult analysisResult).getLast? =
        some (initializeVoices true stepResult analysisResult).speakerStatus) ∧
    (∀ sp seg, (sp, seg) ∈ cloningQueue analysisResult →
        (List.lookup sp.id
            (initializeVoices true stepResult analysisResult).speakerStatus =
            some CloneStatus.CLONED ∨
         List.lookup sp.id
            (initializeVoices true stepResult analysisResult).speakerStatus =
            some CloneStatus.FAILED)) ∧
    (∀ sp ∈ analysisResult.speakers,
        analysisResult.segments.filter (fun s => s.speaker_id = sp.id) = [] →
        List.lookup sp.id
            (initializeVoices true stepResult analysisResult).speakerStatus =
          some CloneStatus.PENDING) := by
  have hqnd := cloningQueue_ids_nodup analysisResult hnd
  have hstatus : (initializeVoices true stepResult analysisResult).speakerStatus =
      (cloningQueue analysisResult).foldl (statusStep stepResult)
        (initialStatus analysisResult.speakers) := by
    simp only [initializeVoices, Bool.true_eq_false, if_false]
    exact processQueue_speakerStatus _ _ _ _
  refine ⟨?_, ?_, ?_, ?_, ?_, ?_⟩
  · rw [statusTrace]
    cases cloningQueue analysisResult <;> rfl
  · intro sp hsp
    exact lookup_initialStatus _ _ (List.mem_map.mpr ⟨sp, hsp, rfl⟩)
  · refine chain_statusTrace stepResult _ _ hqnd ?_
    intro item hitem
    obtain ⟨sp, seg⟩ := item
    obtain ⟨hsp, _, _, _, _⟩ := mem_cloningQueue _ _ _ hitem
    exact lookup_initialStatus _ _ (List.mem_map.mpr ⟨sp, hsp, rfl⟩)
  · rw [statusTrace, scanl_getLast, hstatus]
  · intro sp seg hmem
    rw [hstatus,
      foldl_statusStep_lookup_mem stepResult _ _ sp seg hqnd hmem]
    cases h : stepResult sp.id <;> simp [stepStatus, h]
  · intro sp hsp hfil
    rw [hstatus,
      foldl_statusStep_lookup_not_mem stepResult _ _ _
        (not_mem_cloningQueue_ids analysisResult sp hnd hsp hfil)]
    exact lookup_initialStatus _ _ (List.mem_map.mpr ⟨sp, hsp, rfl⟩)

/-- C9, witness: a run over one speaker with one segment and one speaker
with none: the trace starts all-`PENDING`, every step is an admissible
transition, the queued speaker ends `CLONED` or `FAILED`, and the
segment-less speaker stays `PENDING`. -/
theorem speakerStatus_lifecycle_witness :
    ((statusTrace (fun _ => none)
        { metadata := { total_duration := 4, detected_language := "fr" },
          speakers := [{ id := "sp1", name := "P", voice_tone := "low" },
                       { id := "sp2", name := "Q", voice_tone := "high" }],
          segments := [{ id := "g1", speaker_id := "sp1", start_time := 1,
                         end_time := 2, text := "bonjour" }] }).head? =
      some (initialStatus
        [{ id := "sp1", name := "P", voice_tone := "low" },
         { id := "sp2", name := "Q", voice_tone := "high" }])) ∧
    List.Chain' statusTransOk
      (statusTrace (fun _ => none)
        { metadata := { total_duration := 4, detected_language := "fr" },
          speakers := [{ id := "sp1", name := "P", voice_tone := "low" },
                       { id := "sp2", name := "Q", voice_tone := "high" }],
          segments := [{ id := "g1", speaker_id := "sp1", start_time := 1,
                         end_time := 2, text := "bonjour" }] }) ∧
    (List.lookup ("sp1")
        (initializeVoices true (fun _ => none)
          { metadata := { total_duration := 4, detected_language := "fr" },
            speakers := [{ id := "sp1", name := "P", voice_tone := "low" },
                         { id := "sp2", name := "Q", voice_tone := "high" }],
            segments := [{ id := "g1", speaker_id := "sp1", start_time := 1,
                           end_time := 2, text := "bonjour" }] }).speakerStatus =
        some CloneStatus.CLONED ∨
     List.lookup ("sp1")
        (initializeVoices true (fun _ => none)
          { metadata := { total_duration := 4, detected_language := "fr" },
            speakers := [{ id := "sp1", name := "P", voice_tone := "low" },
                         { id := "sp2", name := "Q", voice_tone := "high" }],
            segments := [{ id := "g1", speaker_id := "sp1", start_time := 1,
                           end_time := 2, text := "bonjour" }] }).speakerStatus =
        some CloneStatus.FAILED) ∧
    List.lookup ("sp2")
      (initializeVoices true (fun _ => none)
        { metadata := { total_duration := 4, detected_language := "fr" },
          speakers := [{ id := "sp1", name := "P", voice_tone := "low" },
                       { id := "sp2", name := "Q", voice_tone := "high" }],
          segments := [{ id := "g1", speaker_id := "sp1", start_time := 1,
                         end_time := 2, text := "bonjour" }] }).speakerStatus =
      some CloneStatus.PENDING := by
  refine ⟨(speakerStatus_lifecycle _ (fun _ => none) (by decide)).1,
    (speakerStatus_lifecycle _ (fun _ => none) (by decide)).2.2.1,
    (speakerStatus_lifecycle _ (fun _ => none) (by decide)).2.2.2.2.1
      ⟨"sp1", "P", "low"⟩ ⟨"g1", "sp1", 1, 2, "bonjour"⟩
      (cloningQueue_of_filter _ ⟨"sp1", "P", "low"⟩
        ⟨"g1", "sp1", 1, 2, "bonjour"⟩ [] (by decide) (by decide)),
    (speakerStatus_lifecycle _ (fun _ => none) (by decide)).2.2.2.2.2
      ⟨"sp2", "Q", "high"⟩ (by decide) (by decide)⟩

/-- C8: in a real-mode run with distinct speaker ids, every speaker whose
filtered segment list is non-empty enters the cloning queue paired with the
selected segment, and that segment is one of maximal duration among the
speaker's segments with ties broken in favor of the first such segment in
segment order (it appears in the list after only strictly-shorter segments);
speakers with zero segments never enter the queue, their status stays
`PENDING`, and the run still ends with `is_ready = true`; a queued speaker
whose step succeeds ends `CLONED`. -/
theorem cloningQueue_selection
    (analysisResult : VideoAnalysisResult) (stepResult : String → Option StepError)
    (hnd : (analysisResult.speakers.map Speaker.id).Nodup) :
    (initializeVoices true stepResult analysisResult).isReady = true ∧
    (∀ sp first rest,
      sp ∈ analysisResult.speakers →
      analysisResult.segments.filter (fun s => s.speaker_id = sp.id) =
        first :: rest →
      ((sp, bestSegmentFold first rest) ∈ cloningQueue analysisResult ∧
       ∃ l₁ l₂,
         first :: rest = l₁ ++ bestSegmentFold first rest :: l₂ ∧
         (∀ s ∈ l₁, segDuration s < segDuration (bestSegmentFold first rest)) ∧
         (∀ s ∈ first :: rest,
            segDuration s ≤ segDuration (bestSegmentFold first rest)))) ∧
    (∀ sp,
      analysisResult.segments.filter (fun s => s.speaker_id = sp.id) = [] →
      ∀ seg, (sp, seg) ∉ cloningQueue analysisResult) ∧
    (∀ sp ∈ analysisResult.speakers,
      analysisResult.segments.filter (fun s => s.speaker_id = sp.id) = [] →
      List.lookup sp.id
          (initializeVoices true stepResult analysisResult).speakerStatus =
        some CloneStatus.PENDING) ∧
    (∀ sp seg, (sp, seg) ∈ cloningQueue analysisResult →
      stepResult sp.id = none →
      List.lookup sp.id
          (initializeVoices true stepResult analysisResult).speakerStatus =
        some CloneStatus.CLONED) := by
  have hqnd := cloningQueue_ids_nodup analysisResult hnd
  have hstatus : (initializeVoices true stepResult analysisResult).speakerStatus =
      (cloningQueue analysisResult).foldl (statusStep stepResult)
        (initialStatus analysisResult.speakers) := by
    simp only [initializeVoices, Bool.true_eq_false, if_false]
    exact processQueue_speakerStatus _ _ _ _
  refine ⟨by simp [initializeVoices], ?_, ?_, ?_, ?_⟩
  · intro sp first rest hsp hfil
    exact ⟨cloningQueue_of_filter _ _ _ _ hsp hfil, bestSegmentFold_spec first rest⟩
  · intro sp hfil seg
    exact not_mem_cloningQueue _ _ hfil seg
  · intro sp hsp hfil
    rw [hstatus,
      foldl_statusStep_lookup_not_mem stepResult _ _ _
        (not_mem_cloningQueue_ids analysisResult sp hnd hsp hfil)]
    exact lookup_initialStatus _ _ (List.mem_map.mpr ⟨sp, hsp, rfl⟩)
  · intro sp seg hmem hstep
    rw [hstatus,
      foldl_statusStep_lookup_mem stepResult _ _ sp seg hqnd hmem]
    simp [stepStatus, hstep]

/-- C8, witness: speakers A (segments of durations 1s and 3s) and B (no
segments): A enters the queue with its 3-second segment, B never enters the
queue, A ends `CLONED`, and the run reaches ready. -/
theorem cloningQueue_selection_witness :
    ({ id := "spk_A", name := "A", voice_tone := "mid" },
     { id := "seg_3", speaker_id := "spk_A", start_time := 2, end_time := 5,
       text := "long" }) ∈
      cloningQueue
        { metadata := { total_duration := 6, detected_language := "de" },
          speakers := [{ id := "spk_A", name := "A", voice_tone := "mid" },
                       { id := "spk_B", name := "B", voice_tone := "low" }],
          segments := [{ id := "seg_1", speaker_id := "spk_A", start_time := 0,
                         end_time := 1, text := "short" },
                       { id := "seg_3", speaker_id := "spk_A", start_time := 2,
                         end_time := 5, text := "long" }] } ∧
    (∀ seg,
      ({ id := "spk_B", name := "B", voice_tone := "low" }, seg) ∉
        cloningQueue
          { metadata := { total_duration := 6, detected_language := "de" },
            speakers := [{ id := "spk_A", name := "A", voice_tone := "mid" },
                         { id := "spk_B", name := "B", voice_tone := "low" }],
            segments := [{ id := "seg_1", speaker_id := "spk_A", start_time := 0,
                           end_time := 1, text := "short" },
                         { id := "seg_3", speaker_id := "spk_A", start_time := 2,
                           end_time := 5, text := "long" }] }) ∧
    List.lookup ("spk_A")
      (initializeVoices true (fun _ => none)
        { metadata := { total_duration := 6, detected_language := "de" },
          speakers := [{ id := "spk_A", name := "A", voice_tone := "mid" },
                       { id := "spk_B", name := "B", voice_tone := "low" }],
          segments := [{ id := "seg_1", speaker_id := "spk_A", start_time := 0,
                         end_time := 1, text := "short" },
                       { id := "seg_3", speaker_id := "spk_A", start_time := 2,
                         end_time := 5, text := "long" }] }).speakerStatus =
      some CloneStatus.CLONED ∧
    (initializeVoices true (fun _ => none)
      { metadata := { total_duration := 6, detected_language := "de" },
        speakers := [{ id := "spk_A", name := "A", voice_tone := "mid" },
                     { id := "spk_B", name := "B", voice_tone := "low" }],
        segments := [{ id := "seg_1", speaker_id := "spk_A", start_time := 0,
                       end_time := 1, text := "short" },
                     { id := "seg_3", speaker_id := "spk_A", start_time := 2,
                       end_time := 5, text := "long" }] }).isReady = true := by
  have hbest :
      bestSegmentFold
        { id := "seg_1", speaker_id := "spk_A", start_time := 0, end_time := 1,
          text := "short" }
        [{ id := "seg_3", speaker_id := "spk_A", start_time := 2, end_time := 5,
           text := "long" }] =
        { id := "seg_3", speaker_id := "spk_A", start_time := 2, end_time := 5,
          text := "long" } := by
    simp only [bestSegmentFold, List.foldl_cons, List.foldl_nil, segDuration]
    norm_num
  have hA :=
    (cloningQueue_selection
      ⟨⟨6, "de"⟩, [⟨"spk_A", "A", "mid"⟩, ⟨"spk_B", "B", "low"⟩],
        [⟨"seg_1", "spk_A", 0, 1, "short"⟩, ⟨"seg_3", "spk_A", 2, 5, "long"⟩]⟩
      (fun _ => none) (by decide)).2.1
      ⟨"spk_A", "A", "mid"⟩
      ⟨"seg_1", "spk_A", 0, 1, "short"⟩
      [⟨"seg_3", "spk_A", 2, 5, "long"⟩]
      (by decide) (by decide)
  refine ⟨?_, ?_, ?_, (cloningQueue_selection _ (fun _ => none) (by decide)).1⟩
  · have := hA.1
    rwa [hbest] at this
  · intro seg
    exact (cloningQueue_selection _ (fun _ => none) (by decide)).2.2.1
      ⟨"spk_B", "B", "low"⟩ (by decide) seg
  · refine (cloningQueue_selection _ (fun _ => none) (by decide)).2.2.2.2
      ⟨"spk_A", "A", "mid"⟩ ⟨"seg_3", "spk_A", 2, 5, "long"⟩ ?_ rfl
    have := hA.1
    rwa [hbest] at this

theorem extractSegmentBuffer_err (audio : AudioBuffer) (startTime endTime : ℚ)
    (h : ⌊endTime * (audio.sampleRate : ℚ)⌋ ≤ ⌊startTime * (audio.sampleRate : ℚ)⌋) :
    extractSegmentBuffer audio startTime endTime =
      Except.error ("Invalid time range for audio extraction") := by
  simp only [extractSegmentBuffer]
  rw [if_pos (by omega)]

theorem extractSegmentBuffer_ok (audio : AudioBuffer) (startTime endTime : ℚ)
    (h : ⌊startTime * (audio.sampleRate : ℚ)⌋ < ⌊endTime * (audio.sampleRate : ℚ)⌋) :
    extractSegmentBuffer audio startTime endTime =
      Except.ok
        { sampleRate := audio.sampleRate,
          channels := audio.channels.map (fun ch =>
            sliceChannel ch (⌊startTime * (audio.sampleRate : ℚ)⌋).toNat
              ((⌊endTime * (audio.sampleRate : ℚ)⌋ -
                ⌊startTime * (audio.sampleRate : ℚ)⌋).toNat)) } := by
  simp only [extractSegmentBuffer]
  rw [if_neg (by omega)]

theorem extractAudioClip_of_seg_error (audio : AudioBuffer) (startTime endTime : ℚ)
    (msg : String)
    (h : extractSegmentBuffer audio startTime endTime = Except.error msg) :
    extractAudioClip (some audio) startTime endTime =
      Except.error extractionFailureMessage := by
  simp [extractAudioClip, decodeAudioData, h, Except.bind, Except.map]

theorem extractAudioClip_of_seg_ok (audio buf : AudioBuffer) (startTime endTime : ℚ)
    (h : extractSegmentBuffer audio startTime endTime = Except.ok buf) :
    extractAudioClip (some audio) startTime endTime =
      Except.ok (audioBufferToWav buf) := by
  simp [extractAudioClip, decodeAudioData, h, Except.bind, Except.map]

/-- C3, counterexample: a decodable source and a window with
`end_time > start_time` for which extraction returns no buffer at all: with
sample rate 10 and the window `(0, 1/20)` both sample indices floor to `0`,
`frameCount` is `0`, and the code throws (audioUtils.ts line 89) — so the
claim does not hold for every window with `end_time > start_time`. -/
theorem extractAudioClip_subsample_window_cex :
    (0 : ℚ) < 1/20 ∧
    extractAudioClip (some ⟨10, [[1/2, 1/2, 1/2]]⟩) 0 (1/20) =
      Except.error extractionFailureMessage := by
  constructor
  · norm_num
  · exact extractAudioClip_of_seg_error _ _ _ _
      (extractSegmentBuffer_err _ _ _ (by norm_num))

/-- C3, amended: for every decodable source, window with
`0 ≤ start_time` and `⌊start_time·rate⌋ < ⌊end_time·rate⌋` (a positive frame
count — forced by the counterexample, since a window shorter than one sample
period fails), extraction succeeds and yields a buffer with exactly
`⌊end_time·rate⌋ − ⌊start_time·rate⌋` frames per channel, where frame `i`
holds the decoded sample at `start_sample + i` when that index is within the
decoded channel and `0` (silence) otherwise. -/
theorem extractSegmentBuffer_frames (audio : AudioBuffer) (startTime endTime : ℚ)
    (hs : 0 ≤ startTime)
    (hlt : ⌊startTime * (audio.sampleRate : ℚ)⌋ < ⌊endTime * (audio.sampleRate : ℚ)⌋) :
    ∃ buf, extractSegmentBuffer audio startTime endTime = Except.ok buf ∧
      extractAudioClip (some audio) startTime endTime =
        Except.ok (audioBufferToWav buf) ∧
      buf.sampleRate = audio.sampleRate ∧
      buf.channels.length = audio.channels.length ∧
      (((⌊endTime * (audio.sampleRate : ℚ)⌋ -
          ⌊startTime * (audio.sampleRate : ℚ)⌋).toNat : ℤ) =
        ⌊endTime * (audio.sampleRate : ℚ)⌋ - ⌊startTime * (audio.sampleRate : ℚ)⌋) ∧
      ∀ c, c < audio.channels.length →
        ((buf.channels.getD c []).length =
          (⌊endTime * (audio.sampleRate : ℚ)⌋ -
            ⌊startTime * (audio.sampleRate : ℚ)⌋).toNat ∧
        ∀ i, i < (⌊endTime * (audio.sampleRate : ℚ)⌋ -
            ⌊startTime * (audio.sampleRate : ℚ)⌋).toNat →
          (buf.channels.getD c []).getD i 0 =
            (if (⌊startTime * (audio.sampleRate : ℚ)⌋).toNat + i <
                (audio.channels.getD c []).length
             then (audio.channels.getD c []).getD
                ((⌊startTime * (audio.sampleRate : ℚ)⌋).toNat + i) 0
             else 0)) := by
  have hseg := extractSegmentBuffer_ok audio startTime endTime hlt
  refine ⟨{ sampleRate := audio.sampleRate,
            channels := audio.channels.map (fun ch =>
              sliceChannel ch (⌊startTime * (audio.sampleRate : ℚ)⌋).toNat
                ((⌊endTime * (audio.sampleRate : ℚ)⌋ -
                  ⌊startTime * (audio.sampleRate : ℚ)⌋).toNat)) },
    hseg, extractAudioClip_of_seg_ok _ _ _ _ hseg, rfl, by simp, by omega, ?_⟩
  intro c hc
  have hmap :
      ((audio.channels.map (fun ch =>
        sliceChannel ch (⌊startTime * (audio.sampleRate : ℚ)⌋).toNat
          ((⌊endTime * (audio.sampleRate : ℚ)⌋ -
            ⌊startTime * (audio.sampleRate : ℚ)⌋).toNat))).getD c []) =
      sliceChannel (audio.channels.getD c [])
        (⌊startTime * (audio.sampleRate : ℚ)⌋).toNat
        ((⌊endTime * (audio.sampleRate : ℚ)⌋ -
          ⌊startTime * (audio.sampleRate : ℚ)⌋).toNat) := by
    rw [List.getD_eq_getElem _ _ (by simpa using hc), List.getElem_map,
      List.getD_eq_getElem _ _ hc]
  rw [hmap]
  constructor
  · simp [sliceChannel]
  · intro i hi
    rw [sliceChannel, List.getD_eq_getElem _ _ (by simpa using hi),
      List.getElem_map, List.getElem_range]

/-- C3, witness: a one-channel source at rate 1 and the window `(0, 2)`:
extraction succeeds with one channel of exactly 2 frames. -/
theorem extractSegmentBuffer_frames_witness :
    ∃ buf, extractSegmentBuffer ⟨1, [[1/2, 1/4]]⟩ 0 2 = Except.ok buf ∧
      buf.channels.length = 1 ∧
      (buf.channels.getD 0 []).length = 2 := by
  obtain ⟨buf, h1, _, _, hlen, hcast, hch⟩ :=
    extractSegmentBuffer_frames ⟨1, [[1/2, 1/4]]⟩ 0 2 (le_refl 0) (by simp)
  refine ⟨buf, h1, by simpa using hlen, ?_⟩
  have h2 := (hch 0 (by simp)).1
  rw [h2]
  simp

/-- C4, counterexample: an undecodable source and an empty time range
produce the *same* error value — the catch-all at audioUtils.ts lines
122-125 rethrows every failure as one generic message, so `DecodeError` and
`RangeError` are not distinguishable by the caller as the claim states. -/
theorem extractAudioClip_error_indistinct_cex :
    extractAudioClip none 0 1 = Except.error extractionFailureMessage ∧
    extractAudioClip (some ⟨10, [[0, 0, 0]]⟩) 1 1 =
      Except.error extractionFailureMessage ∧
    extractAudioClip none 0 1 = extractAudioClip (some ⟨10, [[0, 0, 0]]⟩) 1 1 := by
  have h1 : extractAudioClip none 0 1 = Except.error extractionFailureMessage := rfl
  have h2 : extractAudioClip (some ⟨10, [[0, 0, 0]]⟩) 1 1 =
      Except.error extractionFailureMessage :=
    extractAudioClip_of_seg_error _ _ _ _
      (extractSegmentBuffer_err _ _ _ (le_refl _))
  exact ⟨h1, h2, h1.trans h2.symm⟩

/-- C4, amended: extraction fails exactly when the source cannot be decoded
or the computed frame count is non-positive (`⌊end·rate⌋ ≤ ⌊start·rate⌋`, in
particular whenever `end_time ≤ start_time`), and succeeds whenever
`⌊start·rate⌋ < ⌊end·rate⌋`; but every failure surfaces as the one generic
extraction error, so the two failure kinds are not distinguishable by the
caller. -/
theorem extractAudioClip_error_cases (source : Option AudioBuffer)
    (startTime endTime : ℚ) :
    (source = none →
      extractAudioClip source startTime endTime =
        Except.error extractionFailureMessage) ∧
    (∀ audio, source = some audio →
      ((⌊endTime * (audio.sampleRate : ℚ)⌋ ≤ ⌊startTime * (audio.sampleRate : ℚ)⌋ →
        extractAudioClip source startTime endTime =
          Except.error extractionFailureMessage) ∧
      (endTime ≤ startTime →
        extractAudioClip source startTime endTime =
          Except.error extractionFailureMessage) ∧
      (⌊startTime * (audio.sampleRate : ℚ)⌋ < ⌊endTime * (audio.sampleRate : ℚ)⌋ →
        ∃ blob, extractAudioClip source startTime endTime = Except.ok blob))) := by
  constructor
  · intro h
    subst h
    rfl
  · intro audio hsrc
    subst hsrc
    have herr : ∀ hle : ⌊endTime * (audio.sampleRate : ℚ)⌋ ≤
        ⌊startTime * (audio.sampleRate : ℚ)⌋,
        extractAudioClip (some audio) startTime endTime =
          Except.error extractionFailureMessage := fun hle =>
      extractAudioClip_of_seg_error _ _ _ _ (extractSegmentBuffer_err _ _ _ hle)
    refine ⟨herr, ?_, ?_⟩
    · intro hle
      refine herr ?_
      have hmul : endTime * (audio.sampleRate : ℚ) ≤
          startTime * (audio.sampleRate : ℚ) :=
        mul_le_mul_of_nonneg_right hle (by positivity)
      exact Int.floor_le_floor hmul
    · intro hlt
      exact ⟨audioBufferToWav
        { sampleRate := audio.sampleRate,
          channels := audio.channels.map (fun ch =>
            sliceChannel ch (⌊startTime * (audio.sampleRate : ℚ)⌋).toNat
              ((⌊endTime * (audio.sampleRate : ℚ)⌋ -
                ⌊startTime * (audio.sampleRate : ℚ)⌋).toNat)) },
        extractAudioClip_of_seg_ok _ _ _ _ (extractSegmentBuffer_ok _ _ _ hlt)⟩

/-- C4, witness: an undecodable source fails; a decodable one fails on the
empty range `(1, 1)`; and the window `(0, 2)` at rate 1 succeeds. -/
theorem extractAudioClip_error_cases_witness :
    extractAudioClip none 0 2 = Except.error extractionFailureMessage ∧
    extractAudioClip (some ⟨1, [[1/2]]⟩) 1 1 =
      Except.error extractionFailureMessage ∧
    ∃ blob, extractAudioClip (some ⟨1, [[1/2]]⟩) 0 2 = Except.ok blob :=
  ⟨(extractAudioClip_error_cases none 0 2).1 rfl,
   ((extractAudioClip_error_cases (some ⟨1, [[1/2]]⟩) 1 1).2 _ rfl).1 (by simp),
   ((extractAudioClip_error_cases (some ⟨1, [[1/2]]⟩) 0 2).2 _ rfl).2.2 (by simp)⟩

theorem audioBufferToWav_length (b : AudioBuffer) :
    (audioBufferToWav b).length = 44 + 2 * (interleaveSamples b).length := by
  simp only [audioBufferToWav, asciiBytes_RIFF, asciiBytes_WAVE, asciiBytes_fmt,
    asciiBytes_data, u16le, u32le, List.length_append, List.length_cons,
    List.length_nil, length_wavData]

theorem audioBufferToWav_header_raw (b : AudioBuffer) :
    (audioBufferToWav b).take 4 = [82, 73, 70, 70] ∧
    ((audioBufferToWav b).drop 8).take 4 = [87, 65, 86, 69] ∧
    ((audioBufferToWav b).drop 12).take 4 = [102, 109, 116, 32] ∧
    ((audioBufferToWav b).drop 36).take 4 = [100, 97, 116, 97] ∧
    readU16le (audioBufferToWav b) 20 = 1 ∧
    readU16le (audioBufferToWav b) 22 =
      b.numberOfChannels % 256 + 256 * (b.numberOfChannels / 256 % 256) ∧
    readU32le (audioBufferToWav b) 24 =
      b.sampleRate % 256 + 256 * (b.sampleRate / 256 % 256) +
      65536 * (b.sampleRate / 65536 % 256) +
      16777216 * (b.sampleRate / 16777216 % 256) ∧
    readU32le (audioBufferToWav b) 28 =
      b.sampleRate * (b.numberOfChannels * 2) % 256 +
      256 * (b.sampleRate * (b.numberOfChannels * 2) / 256 % 256) +
      65536 * (b.sampleRate * (b.numberOfChannels * 2) / 65536 % 256) +
      16777216 * (b.sampleRate * (b.numberOfChannels * 2) / 16777216 % 256) ∧
    readU16le (audioBufferToWav b) 32 =
      b.numberOfChannels * 2 % 256 + 256 * (b.numberOfChannels * 2 / 256 % 256) ∧
    readU16le (audioBufferToWav b) 34 = 16 ∧
    (audioBufferToWav b).drop 44 =
      ((interleaveSamples b).map (fun s => i16le (quantizeSample s))).flatten := by
  simp [audioBufferToWav, asciiBytes_RIFF, asciiBytes_WAVE, asciiBytes_fmt,
    asciiBytes_data, u16le, u32le, readU16le, readU32le]

theorem mem_wavData_lt (l : List ℚ) (byte : ℕ)
    (h : byte ∈ (l.map (fun s => i16le (quantizeSample s))).flatten) : byte < 256 := by
  obtain ⟨bs, hbs, hb⟩ := List.mem_flatten.mp h
  obtain ⟨s, _, rfl⟩ := List.mem_map.mp hbs
  exact mem_u16le _ _ (by simpa [i16le] using hb)

theorem audioBufferToWav_bytes_lt (b : AudioBuffer) :
    ∀ byte ∈ audioBufferToWav b, byte < 256 := by
  intro byte h
  simp only [audioBufferToWav, asciiBytes_RIFF, asciiBytes_WAVE, asciiBytes_fmt,
    asciiBytes_data, u16le, u32le, List.mem_append, List.mem_cons,
    List.not_mem_nil, or_false] at h
  repeat' rcases h with h | h
  all_goals first
    | omega
    | exact mem_wavData_lt _ _ h

theorem getChannelData_mem (b : AudioBuffer) (i : ℕ) (h : i < b.channels.length) :
    b.getChannelData i ∈ b.channels := by
  rw [AudioBuffer.getChannelData, List.getD_eq_getElem _ _ h]
  exact b.channels.getElem_mem h

theorem interleaveSamples_zero (b : AudioBuffer)
    (hzero : ∀ ch ∈ b.channels, ∀ s ∈ ch, s = 0) :
    ∀ x ∈ interleaveSamples b, x = 0 := by
  intro x hx
  have hchan : ∀ i : ℕ, ∀ j : ℕ, i < b.channels.length →
      (b.getChannelData i).getD j 0 = 0 := by
    intro i j hi
    rcases getD_mem_or_default (b.getChannelData i) j 0 with h | h
    · exact hzero _ (getChannelData_mem b i hi) _ h
    · exact h
  rw [interleaveSamples] at hx
  by_cases h2 : b.numberOfChannels = 2
  · rw [if_pos h2] at hx
    obtain ⟨j, _, hj⟩ := List.mem_flatMap.mp hx
    simp only [List.mem_cons, List.not_mem_nil, or_false] at hj
    rcases hj with hj | hj
    · rw [hj]
      exact hchan 0 j (by rw [← AudioBuffer.numberOfChannels, h2]; omega)
    · rw [hj]
      exact hchan 1 j (by rw [← AudioBuffer.numberOfChannels, h2]; omega)
  · rw [if_neg h2] at hx
    by_cases hl : 0 < b.channels.length
    · exact hzero _ (getChannelData_mem b 0 hl) _ hx
    · have : b.channels = [] := List.length_eq_zero.mp (by omega)
      rw [AudioBuffer.getChannelData, this] at hx
      simp at hx

theorem interleaveSamples_two (b : AudioBuffer) (h2 : b.numberOfChannels = 2) :
    (interleaveSamples b).length = 2 * (b.getChannelData 0).length ∧
    ∀ i, i < (b.getChannelData 0).length →
      ((interleaveSamples b).getD (2 * i) 0 = (b.getChannelData 0).getD i 0 ∧
       (interleaveSamples b).getD (2 * i + 1) 0 = (b.getChannelData 1).getD i 0) := by
  rw [interleaveSamples, if_pos h2]
  exact ⟨flatMapPair_length _ _ _, fun i hi => flatMapPair_getD _ _ _ i hi⟩

theorem interleaveSamples_ne_two (b : AudioBuffer) (h2 : b.numberOfChannels ≠ 2) :
    interleaveSamples b = b.getChannelData 0 := by
  rw [interleaveSamples, if_neg h2]

/-- C6, counterexample: a three-channel buffer is encoded without any
failure — `audioBufferToWav` has no error path at all (audioUtils.ts lines
14-24 fall into the mono branch for any channel count other than 2) — and
produces a complete 46-byte blob whose header declares 3 channels while its
sample data comes from channel 0 alone, contradicting the claimed
`UnsupportedFormatError` for more than two channels. -/
theorem audioBufferToWav_three_channel_cex :
    interleaveSamples ⟨8000, [[0], [0], [0]]⟩ =
      AudioBuffer.getChannelData ⟨8000, [[0], [0], [0]]⟩ 0 ∧
    (audioBufferToWav ⟨8000, [[0], [0], [0]]⟩).length = 46 ∧
    readU16le (audioBufferToWav ⟨8000, [[0], [0], [0]]⟩) 22 = 3 := by
  refine ⟨interleaveSamples_ne_two _ (by decide), ?_, ?_⟩
  · rw [audioBufferToWav_length, interleaveSamples_ne_two _ (by decide)]
    rfl
  · rw [(audioBufferToWav_header_raw ⟨8000, [[0], [0], [0]]⟩).2.2.2.2.2.1]
    rfl

/-- C6, amended: the encoder is pure and total for every buffer regardless
of channel count: it always produces a well-formed byte blob (44 header
bytes plus two bytes per interleaved sample, every byte below 256).  A
buffer whose channel count is not 2 — including one with more than two
channels — is not rejected; its data section is built from channel 0
alone. -/
theorem audioBufferToWav_total (b : AudioBuffer) :
    (audioBufferToWav b).length = 44 + 2 * (interleaveSamples b).length ∧
    (∀ byte ∈ audioBufferToWav b, byte < 256) ∧
    (b.numberOfChannels ≠ 2 → interleaveSamples b = b.getChannelData 0) :=
  ⟨audioBufferToWav_length b, audioBufferToWav_bytes_lt b,
   interleaveSamples_ne_two b⟩

/-- C6, witness: the three-channel buffer is encoded totally, from channel
0's single sample. -/
theorem audioBufferToWav_total_witness :
    (audioBufferToWav ⟨44100, [[0], [1/4], [1/2]]⟩).length =
      44 + 2 * (interleaveSamples ⟨44100, [[0], [1/4], [1/2]]⟩).length ∧
    interleaveSamples ⟨44100, [[0], [1/4], [1/2]]⟩ =
      AudioBuffer.getChannelData ⟨44100, [[0], [1/4], [1/2]]⟩ 0 :=
  ⟨(audioBufferToWav_total ⟨44100, [[0], [1/4], [1/2]]⟩).1,
   (audioBufferToWav_total ⟨44100, [[0], [1/4], [1/2]]⟩).2.2 (by decide)⟩

/-- C7: for every well-formed 1- or 2-channel buffer (equal channel lengths,
sample rate and byte rate below 2^32) the encoder emits the canonical
little-endian container byte-exactly: the RIFF/WAVE/fmt/data tags, PCM
format code 1, the given channel count and sample rate, byte rate
`sample_rate · channels · 2`, block align `channels · 2`, bit depth 16, and
a data section of exactly `frames · channels · 2` bytes that is all zero
bytes when every sample is zero; the 2-channel case interleaves left/right
sample-by-sample; and parsing the emitted header recovers exactly the
channel count, sample rate, and bit depth 16 that were given. -/
theorem audioBufferToWav_header (b : AudioBuffer)
    (hch : b.numberOfChannels = 1 ∨ b.numberOfChannels = 2)
    (hlen : ∀ ch ∈ b.channels, ch.length = (b.getChannelData 0).length)
    (hsr : b.sampleRate < 4294967296)
    (hbr : b.sampleRate * (b.numberOfChannels * 2) < 4294967296) :
    (audioBufferToWav b).take 4 = asciiBytes ("RIFF") ∧
    ((audioBufferToWav b).drop 8).take 4 = asciiBytes ("WAVE") ∧
    ((audioBufferToWav b).drop 12).take 4 = asciiBytes ("fmt ") ∧
    ((audioBufferToWav b).drop 36).take 4 = asciiBytes ("data") ∧
    readU16le (audioBufferToWav b) 20 = 1 ∧
    readU16le (audioBufferToWav b) 22 = b.numberOfChannels ∧
    readU32le (audioBufferToWav b) 24 = b.sampleRate ∧
    readU32le (audioBufferToWav b) 28 = b.sampleRate * (b.numberOfChannels * 2) ∧
    readU16le (audioBufferToWav b) 32 = b.numberOfChannels * 2 ∧
    readU16le (audioBufferToWav b) 34 = 16 ∧
    ((audioBufferToWav b).drop 44).length =
      (b.getChannelData 0).length * b.numberOfChannels * 2 ∧
    ((∀ ch ∈ b.channels, ∀ s ∈ ch, s = 0) →
      (audioBufferToWav b).drop 44 =
        List.replicate ((b.getChannelData 0).length * b.numberOfChannels * 2) 0) ∧
    (b.numberOfChannels = 2 →
      ∀ i, i < (b.getChannelData 0).length →
        ((interleaveSamples b).getD (2 * i) 0 = (b.getChannelData 0).getD i 0 ∧
         (interleaveSamples b).getD (2 * i + 1) 0 =
           (b.getChannelData 1).getD i 0)) := by
  obtain ⟨t1, t2, t3, t4, f20, f22, f24, f28, f32, f34, d44⟩ :=
    audioBufferToWav_header_raw b
  have hch16 : b.numberOfChannels < 32768 := by rcases hch with h | h <;> omega
  have hinter : (interleaveSamples b).length =
      (b.getChannelData 0).length * b.numberOfChannels := by
    rcases hch with h | h
    · rw [interleaveSamples_ne_two b (by omega), h, Nat.mul_one]
    · rw [(interleaveSamples_two b h).1, h, Nat.mul_comm]
  refine ⟨by rw [t1, asciiBytes_RIFF], by rw [t2, asciiBytes_WAVE],
    by rw [t3, asciiBytes_fmt], by rw [t4, asciiBytes_data], f20,
    ?_, ?_, ?_, ?_, f34, ?_, ?_, ?_⟩
  · rw [f22]; omega
  · rw [f24]; omega
  · rw [f28]; omega
  · rw [f32]; omega
  · rw [d44, length_wavData, hinter]; ring
  · intro hz
    have harith : 2 * ((b.getChannelData 0).length * b.numberOfChannels) =
        (b.getChannelData 0).length * b.numberOfChannels * 2 := by ring
    rw [d44, wavData_zero _ (interleaveSamples_zero b hz), hinter, harith]
  · intro h2 i hi
    exact (interleaveSamples_two b h2).2 i hi

/-- C7, witness: a 2-channel, 2-frame, all-zero buffer at rate 8000: parsing
the emitted header recovers 2 channels, rate 8000, bit depth 16, and the
data section is 8 zero bytes. -/
theorem audioBufferToWav_header_witness :
    readU16le (audioBufferToWav ⟨8000, [[0, 0], [0, 0]]⟩) 22 = 2 ∧
    readU32le (audioBufferToWav ⟨8000, [[0, 0], [0, 0]]⟩) 24 = 8000 ∧
    readU16le (audioBufferToWav ⟨8000, [[0, 0], [0, 0]]⟩) 34 = 16 ∧
    (audioBufferToWav ⟨8000, [[0, 0], [0, 0]]⟩).drop 44 =
      List.replicate 8 0 := by
  obtain ⟨_, _, _, _, _, f22, f24, _, _, f34, _, dz, _⟩ :=
    audioBufferToWav_header ⟨8000, [[0, 0], [0, 0]]⟩ (Or.inr (by decide))
      (by decide) (by decide) (by decide)
  exact ⟨f22, f24, f34, dz (by decide)⟩

end Dubstudio
